import Mathlib

/-!
Shallow embedding of the behavior-tree declarative-definition validator and
builder found in `src/xml_parsing.cpp` (namespace `BT`, class `XMLParser`),
together with theorems checking the natural-language specification against it.

The structured-document library (tinyxml2) is external to the core: an element
is its name, its source line, its attributes and its ordered element children.
`XMLParser::verifyXML` and `XMLParser::instantiateTree` are translated from the
source; the header-only helper `treeParsing` and the external node factory are
modelled from the specification, as marked on their doc comments.

Diagnostics are modelled structurally as the spec's `{line, message}` pairs:
`AppendError(line_num, text)` in the source formats the pair into one string
with `sprintf("Error at line %d: -> %s", ...)`; we keep the line and the text
separate and drop only that presentation-layer formatting.  The two messages
that the source emits without a line number carry `none` as their line.
-/

/-- A structured-document element as consumed by the validator/builder:
name, source line number, attributes, and ordered element children
(`FirstChildElement`/`NextSiblingElement` iterate element children only). -/
structure XMLElement where
  name : String
  line : Nat
  attributes : List (String × String)
  children : List XMLElement

/-- The parsed document held by `XMLParser`: whether loading failed
(`doc_.Error()`) and the root element (`doc_.RootElement()`, null when the
document is empty). -/
structure XMLDocument where
  loadError : Bool
  root : Option XMLElement

/-- One validator diagnostic: the source line it cites (when any) and the
message text passed to `AppendError` (or emplaced directly). -/
structure Diagnostic where
  line : Option Nat
  text : String
deriving DecidableEq, Repr

/-- Attribute access `element->Attribute(key)`: the value of the attribute
named `key`, or none when the attribute is absent (tinyxml2 returns a null
pointer). -/
def XMLElement.attr (e : XMLElement) (key : String) : Option String :=
  match e.attributes.find? (fun a => a.1 == key) with
  | some a => some a.2
  | none => none

/-- First child element named `nm`, as `xml_root->FirstChildElement(nm)`
finds it. -/
def firstNamed (nm : String) : List XMLElement → Option XMLElement
  | [] => none
  | c :: rest => if c.name = nm then some c else firstNamed nm rest

/-- Second child element named `nm`: what `meta_root->NextSiblingElement(nm)`
finds after `meta_root = firstNamed nm`. -/
def secondNamed (nm : String) : List XMLElement → Option XMLElement
  | [] => none
  | c :: rest => if c.name = nm then firstNamed nm rest else secondNamed nm rest

/-- The per-declaration checks of `verifyXML` run on each child of `xml_root`
when a `TreeNodesModel` exists (`xml_parsing.cpp` lines 83-108): declared
`Action`/`Decorator`/`SubTree`/`Condition` entries need an `ID` attribute, and
for every `Parameter` child of `xml_root` the declared node is checked for
`label` and `type` attributes (the source reads those two attributes off the
declared node itself). -/
def declErrsOf (xml_root node : XMLElement) : List Diagnostic :=
  if node.name = "Action" ∨ node.name = "Decorator" ∨ node.name = "SubTree" ∨
      node.name = "Condition" then
    (if (node.attr "ID").isNone then
      [⟨some node.line, "Error at line %d: -> The attribute [ID] is mandatory"⟩]
     else []) ++
    ((xml_root.children.filter (fun c => c.name = "Parameter")).map (fun _ =>
      if (node.attr "label").isNone ∨ (node.attr "type").isNone then
        [⟨some node.line,
          "The node <Parameter> requires the attributes [type] and [label]"⟩]
      else [])).flatten
  else []

/-- The `TreeNodesModel` section of `verifyXML` (`xml_parsing.cpp` lines
72-109): at most one `TreeNodesModel` child is permitted (a second one yields
one diagnostic), and the per-declaration checks run only when a
`TreeNodesModel` is present. -/
def metaErrors (xml_root : XMLElement) : List Diagnostic :=
  (match secondNamed "TreeNodesModel" xml_root.children with
   | some s => [⟨some s.line, " Only a single node <TreeNodesModel> is supported"⟩]
   | none => []) ++
  (match firstNamed "TreeNodesModel" xml_root.children with
   | none => []
   | some _ => (xml_root.children.map (declErrsOf xml_root)).flatten)

/-- The per-element checks of `recursiveStep` (`xml_parsing.cpp` lines
116-174), before the recursion into the children. -/
def localErrors (node : XMLElement) : List Diagnostic :=
  let children_count := node.children.length
  if node.name = "Decorator" then
    (if children_count ≠ 1 then
      [⟨some node.line, "The node <Decorator> must have exactly 1 child"⟩] else []) ++
    (if (node.attr "ID").isNone then
      [⟨some node.line, "The node <Decorator> must have the attribute [ID]"⟩] else [])
  else if node.name = "Action" then
    (if children_count ≠ 0 then
      [⟨some node.line, "The node <Action> must not have any child"⟩] else []) ++
    (if (node.attr "ID").isNone then
      [⟨some node.line, "The node <Action> must have the attribute [ID]"⟩] else [])
  else if node.name = "Condition" then
    (if children_count ≠ 0 then
      [⟨some node.line, "The node <Condition> must not have any child"⟩] else []) ++
    (if (node.attr "ID").isNone then
      [⟨some node.line, "The node <Condition> must have the attribute [ID]"⟩] else [])
  else if node.name = "Sequence" ∨ node.name = "SequenceStar" ∨
      node.name = "Fallback" ∨ node.name = "FallbackStar" then
    (if children_count = 0 then
      [⟨some node.line, "A Control node must have at least 1 child"⟩] else [])
  else if node.name = "SubTree" then
    (if children_count > 0 then
      [⟨some node.line, "The <SubTree> node must have no children"⟩] else []) ++
    (if (node.attr "ID").isNone then
      [⟨some node.line, "The node <SubTree> must have the attribute [ID]"⟩] else [])
  else
    [⟨some node.line, "Node not recognized"⟩]

mutual
/-- The recursive structural walk of `verifyXML` (`xml_parsing.cpp` lines
116-180): check the element locally, then recurse into every child. -/
def recursiveStep (node : XMLElement) : List Diagnostic :=
  localErrors node ++ recursiveStepList node.children
termination_by sizeOf node
decreasing_by
  cases node
  simp

/-- The child loop of `recursiveStep` (`xml_parsing.cpp` lines 176-179). -/
def recursiveStepList (cs : List XMLElement) : List Diagnostic :=
  match cs with
  | [] => []
  | c :: rest => recursiveStep c ++ recursiveStepList rest
termination_by sizeOf cs
decreasing_by
  · simp
    omega
  · simp
end

/-- The per-`BehaviorTree` check of `verifyXML` (`xml_parsing.cpp` lines
185-192): exactly one child, and only when that holds does the walk descend
into the single child. -/
def btErrors (bt : XMLElement) : List Diagnostic :=
  match bt.children with
  | [c] => recursiveStep c
  | _ => [⟨some bt.line, "The node <BehaviorTree> must have exactly 1 child"⟩]

/-- The `BehaviorTree` loop of `verifyXML` (`xml_parsing.cpp` lines 182-193). -/
def treeErrors (xml_root : XMLElement) : List Diagnostic :=
  ((xml_root.children.filter (fun c => c.name = "BehaviorTree")).map btErrors).flatten

/-- Translation of `XMLParser::verifyXML` (`xml_parsing.cpp` lines 32-195): returns the
validity flag and the collected diagnostics.  `is_valid` is set to false by
every `AppendError` call and only by those, so in the main branch it equals
the emptiness of the collected list; the two early-return branches emit one
line-less diagnostic and return false directly. -/
def verifyXML (doc : XMLDocument) : Bool × List Diagnostic :=
  if doc.loadError then
    (false, [⟨none, "The XML was not correctly loaded"⟩])
  else
    match doc.root with
    | none => (false, [⟨none, "The XML must have a root node called <root>"⟩])
    | some xml_root =>
      if xml_root.name = "root" then
        let msgs := metaErrors xml_root ++ treeErrors xml_root
        (msgs.isEmpty, msgs)
      else
        (false, [⟨none, "The XML must have a root node called <root>"⟩])

/-- The dynamic type of a node produced by the external factory, as probed by
`instantiateTree`'s `node_builder` with `dynamic_cast`: `ControlNode`,
`DecoratorNode`, `DecoratorSubtreeNode` (a decorator, per the spec the Subtree
decorator is structurally a Decorator), or a leaf (`Action`/`Condition`). -/
inductive NodeKind
  | action
  | condition
  | control
  | decorator
  | subtreeDecorator
deriving DecidableEq, Repr

/-- A node instantiated during the build, as recorded in the flat list
`nodes`: registration ID, instance name, parameters, dynamic kind, the parent
it was attached to, and the indices of the children attached to it
(`addChild` appends for a Control parent, `setChild` sets the single child of
a Decorator parent). -/
structure BuiltNode where
  id : String
  name : String
  params : List (String × String)
  kind : NodeKind
  parent : Option Nat
  childIndices : List Nat
deriving DecidableEq, Repr

/-- Modelled from the spec: the node factory is an external collaborator
(§1, §6), an opaque capability `instantiate(ID, name, params) -> Node` that
fails with an unknown-ID error when `ID` is not registered.  We model it as
its registration table from ID to the kind of node the registered constructor
produces. -/
abbrev Factory : Type := List (String × NodeKind)

/-- How an `instantiateTree` run ends abnormally.  `verifyFailed` and
`unknownNodeId` are thrown exceptions in the source; `nullAttribute` marks the
undefined behavior of constructing `std::string` from the null pointer that
`Attribute` returns for a missing attribute, `nullDereference` the undefined
behavior of calling a member function through the null `XMLElement*` that
`std::map::operator[]` default-inserts for an absent key; `outOfFuel` marks a
run that exhausted the step bound of the fuelled embedding. -/
inductive BuildErr
  | verifyFailed (msgs : List Diagnostic)
  | nullAttribute
  | unknownNodeId (id : String)
  | nullDereference
  | outOfFuel
deriving DecidableEq, Repr

/-- Lookup in an association list, first binding wins (the reads that
`std::map::find`/`operator[]` would answer). -/
def lookupAssoc {α : Type} (k : String) : List (String × α) → Option α
  | [] => none
  | kv :: rest => if kv.1 = k then some kv.2 else lookupAssoc k rest

/-- Insertion with overwrite, as `std::map::operator[] =` behaves on a
duplicate key. -/
def insertAssoc {α : Type} (k : String) (v : α) : List (String × α) → List (String × α)
  | [] => [(k, v)]
  | kv :: rest => if kv.1 = k then (k, v) :: rest else kv :: insertAssoc k v rest

/-- The `bt_roots` collection loop of `instantiateTree` (`xml_parsing.cpp`
lines 215-221): `bt_roots[node->Attribute("ID")] = node` over every
`BehaviorTree` child of the root.  A `BehaviorTree` without an `ID` attribute
makes `Attribute` return null and the `std::string` key construction undefined
behavior. -/
def collectBtRoots : List XMLElement → List (String × XMLElement) →
    Except BuildErr (List (String × XMLElement))
  | [], acc => .ok acc
  | bt :: rest, acc =>
    match bt.attr "ID" with
    | none => .error .nullAttribute
    | some id => collectBtRoots rest (insertAssoc id bt acc)

/-- Replace the element at an index of a list, identity out of range. -/
def updateAt {α : Type} (p : Nat) (f : α → α) : List α → List α
  | [] => []
  | x :: rest =>
    match p with
    | 0 => f x :: rest
    | p + 1 => x :: updateAt p f rest

/-- The parent-attachment step of `node_builder` (`xml_parsing.cpp` lines
228-240): `dynamic_cast<ControlNode*>` succeeding means `addChild` (append),
`dynamic_cast<DecoratorNode*>` succeeding (also for the Subtree decorator, a
`DecoratorNode`) means `setChild` (set the single child slot). -/
def attachChild (nodes : List BuiltNode) (p idx : Nat) : List BuiltNode :=
  updateAt p (fun parentNode =>
    match parentNode.kind with
    | .control => { parentNode with childIndices := parentNode.childIndices ++ [idx] }
    | .decorator => { parentNode with childIndices := [idx] }
    | .subtreeDecorator => { parentNode with childIndices := [idx] }
    | _ => parentNode) nodes

/-- Modelled from the spec: the registration ID under which `treeParsing`
(declared in the header `xml_parsing.h`, which is not under `src/`) asks the
factory for a constructor (§4.7, §6): the mandatory `ID` attribute for the
declared `Action`/`Condition`/`Decorator` elements, the element name for the
Control kinds and for `SubTree` (the structural kinds the factory knows by
their grammar name). -/
def elemID (e : XMLElement) : String :=
  if e.name = "Action" ∨ e.name = "Condition" ∨ e.name = "Decorator" then
    (e.attr "ID").getD ""
  else e.name

/-- Modelled from the spec: the instance name `treeParsing` passes to the
factory.  For a `SubTree` element it is the referenced `BehaviorTree` ID
(§4.4: a named reference by ID — `node_builder` resolves `bt_roots[name]`
through exactly this argument); otherwise the `name` attribute when present,
else the registration ID. -/
def elemName (e : XMLElement) : String :=
  if e.name = "SubTree" then (e.attr "ID").getD ""
  else
    match e.attr "name" with
    | some n => n
    | none => elemID e

/-- Modelled from the spec: the node parameters, "taken from the element's
attributes other than `ID`/`name`" (§4.7). -/
def elemParams (e : XMLElement) : List (String × String) :=
  e.attributes.filter (fun a => a.1 ≠ "ID" ∧ a.1 ≠ "name")

mutual
/-- The `node_builder` lambda of `XMLParser::instantiateTree`
(`xml_parsing.cpp` lines 224-249): instantiate through the factory, push the
node onto the flat list, attach it to its parent by dynamic kind, and when the
new node is a `DecoratorSubtreeNode` recursively parse the referenced
`BehaviorTree`'s first child element into it — with no occurs check, so a
reference cycle recurses until the fuel (in C++: the call stack) runs out.
The state threaded through is the caller's `nodes` vector; an error carries
the vector's contents at the moment of the throw. -/
def node_builder (fuel : Nat) (factory : Factory) (bt_roots : List (String × XMLElement))
    (ID name : String) (params : List (String × String)) (parent : Option Nat)
    (nodes : List BuiltNode) : Except (BuildErr × List BuiltNode) (Nat × List BuiltNode) :=
  match fuel with
  | 0 => .error (.outOfFuel, nodes)
  | fuel + 1 =>
    match lookupAssoc ID factory with
    | none => .error (.unknownNodeId ID, nodes)
    | some kind =>
      let idx := nodes.length
      let nodes1 := nodes ++ [⟨ID, name, params, kind, parent, []⟩]
      let nodes2 :=
        match parent with
        | none => nodes1
        | some p => attachChild nodes1 p idx
      match kind with
      | .subtreeDecorator =>
        (match lookupAssoc name bt_roots with
         | none => .error (.nullDereference, nodes2)
         | some bt =>
           match bt.children.head? with
           | none => .error (.nullDereference, nodes2)
           | some subtree_elem =>
             match treeParsing fuel factory bt_roots subtree_elem (some idx) nodes2 with
             | .error e => .error e
             | .ok (_, nodes3) => .ok (idx, nodes3))
      | _ => .ok (idx, nodes2)
termination_by structural fuel

/-- Modelled from the spec: `treeParsing` is declared in the header
`xml_parsing.h`, which is not under `src/` (only its caller
`XMLParser::instantiateTree` is).  §4.7: recursively walk the structural
elements; for each one call `instantiate(ID, name, params)` through the
node-builder and then recurse into the element's children with the new node as
their parent, threading the same flat list. -/
def treeParsing (fuel : Nat) (factory : Factory) (bt_roots : List (String × XMLElement))
    (element : XMLElement) (parent : Option Nat)
    (nodes : List BuiltNode) : Except (BuildErr × List BuiltNode) (Nat × List BuiltNode) :=
  match fuel with
  | 0 => .error (.outOfFuel, nodes)
  | fuel + 1 =>
    match node_builder fuel factory bt_roots (elemID element) (elemName element)
        (elemParams element) parent nodes with
    | .error e => .error e
    | .ok (idx, nodes1) =>
      match treeParsingChildren fuel factory bt_roots element.children idx nodes1 with
      | .error e => .error e
      | .ok nodes2 => .ok (idx, nodes2)
termination_by structural fuel

/-- Modelled from the spec: the loop of `treeParsing` over an element's
children (§4.7), left to right, threading the flat list. -/
def treeParsingChildren (fuel : Nat) (factory : Factory) (bt_roots : List (String × XMLElement))
    (cs : List XMLElement) (parentIdx : Nat)
    (nodes : List BuiltNode) : Except (BuildErr × List BuiltNode) (List BuiltNode) :=
  match cs with
  | [] => .ok nodes
  | c :: rest =>
    match fuel with
    | 0 => .error (.outOfFuel, nodes)
    | fuel + 1 =>
      match treeParsing fuel factory bt_roots c (some parentIdx) nodes with
      | .error e => .error e
      | .ok (_, nodes1) => treeParsingChildren fuel factory bt_roots rest parentIdx nodes1
termination_by structural fuel
end

/-- Translation of `XMLParser::instantiateTree` (`xml_parsing.cpp` lines 197-254): run the
validator and throw with all collected diagnostics if any; read the root's
`main_tree_to_execute` attribute; collect `bt_roots`; then parse the selected
tree's first child element.  `bt_roots[main_tree_ID]` on an absent key
default-inserts a null pointer whose `->FirstChildElement()` is undefined
behavior, modelled as `nullDereference`. -/
def instantiateTree (fuel : Nat) (factory : Factory) (doc : XMLDocument)
    (nodes : List BuiltNode) : Except (BuildErr × List BuiltNode) (Nat × List BuiltNode) :=
  let error_messages := (verifyXML doc).2
  if error_messages.isEmpty then
    match doc.root with
    | none => .error (.nullDereference, nodes)
    | some xml_root =>
      match xml_root.attr "main_tree_to_execute" with
      | none => .error (.nullAttribute, nodes)
      | some main_tree_ID =>
        match collectBtRoots (xml_root.children.filter (fun c => c.name = "BehaviorTree")) [] with
        | .error e => .error (e, nodes)
        | .ok bt_roots =>
          match lookupAssoc main_tree_ID bt_roots with
          | none => .error (.nullDereference, nodes)
          | some bt =>
            match bt.children.head? with
            | none => .error (.nullDereference, nodes)
            | some root_element => treeParsing fuel factory bt_roots root_element none nodes
  else .error (.verifyFailed error_messages, nodes)

/-- Grammar of §4.6 for a single structural element, written from the spec's
words to be compared with the implementation's `localErrors`: `Decorator`
exactly 1 child and mandatory `ID`; `Action`/`Condition` 0 children and
mandatory `ID`; the four Control kinds at least 1 child; `SubTree` 0 children
and mandatory `ID`; any other name is not a recognized structural element. -/
def specLocalOk (e : XMLElement) : Bool :=
  if e.name = "Decorator" then
    e.children.length == 1 && (e.attr "ID").isSome
  else if e.name = "Action" ∨ e.name = "Condition" then
    e.children.length == 0 && (e.attr "ID").isSome
  else if e.name = "Sequence" ∨ e.name = "SequenceStar" ∨
      e.name = "Fallback" ∨ e.name = "FallbackStar" then
    1 ≤ e.children.length
  else if e.name = "SubTree" then
    e.children.length == 0 && (e.attr "ID").isSome
  else false

mutual
/-- Grammar of §4.6 over a whole structural subtree, from the spec's words:
every reachable structural element satisfies its local rule. -/
def specSubtreeOk (e : XMLElement) : Bool :=
  specLocalOk e && specSubtreeOkList e.children
termination_by sizeOf e
decreasing_by
  cases e
  simp

/-- Conjunction of `specSubtreeOk` over a list of elements. -/
def specSubtreeOkList (cs : List XMLElement) : Bool :=
  match cs with
  | [] => true
  | c :: rest => specSubtreeOk c && specSubtreeOkList rest
termination_by sizeOf cs
decreasing_by
  · simp
    omega
  · simp
end

mutual
/-- Elements visited by the walk of `recursiveStep` starting at `e`: the
element itself and, recursively, every element below it. -/
def elemsOf (e : XMLElement) : List XMLElement :=
  e :: elemsOfList e.children
termination_by sizeOf e
decreasing_by
  cases e
  simp

/-- Concatenation of `elemsOf` over a list of elements. -/
def elemsOfList (cs : List XMLElement) : List XMLElement :=
  match cs with
  | [] => []
  | c :: rest => elemsOf c ++ elemsOfList rest
termination_by sizeOf cs
decreasing_by
  · simp
    omega
  · simp
end

/-- Identity of a built node: every `BuiltNode` field except the child links,
which `addChild`/`setChild` mutate in place on an already-stored parent while
the node itself stays in the flat list. -/
def nodeCore (n : BuiltNode) :
    String × String × List (String × String) × NodeKind × Option Nat :=
  (n.id, n.name, n.params, n.kind, n.parent)

/-- Contents of the caller's `nodes` vector at the end of a build step,
whether the step returned or threw. -/
def resNodes (r : Except (BuildErr × List BuiltNode) (Nat × List BuiltNode)) :
    List BuiltNode :=
  match r with
  | .error en => en.2
  | .ok vn => vn.2

/-- Contents of the caller's `nodes` vector at the end of a child loop,
whether the loop returned or threw. -/
def resNodesL (r : Except (BuildErr × List BuiltNode) (List BuiltNode)) :
    List BuiltNode :=
  match r with
  | .error en => en.2
  | .ok n => n

/-- A loaded definition holding two distinct grammar violations inside one
`BehaviorTree`: an unrecognized element name at line 4 and an `Action` without
the mandatory `ID` at line 5. -/
def two_violation_doc : XMLDocument :=
  ⟨false, some ⟨"root", 1, [],
    [⟨"BehaviorTree", 2, [("ID", "T")],
      [⟨"Sequence", 3, [],
        [⟨"Banana", 4, [], []⟩,
         ⟨"Action", 5, [], []⟩]⟩]⟩]⟩⟩

/-- A loaded definition whose `BehaviorTree` (line 2) has two children, the
first of which is itself a grammar violation (a childless `Decorator` with no
`ID`): used to show the walk does not descend into a malformed
`BehaviorTree`. -/
def bt_two_children_doc : XMLDocument :=
  ⟨false, some ⟨"root", 1, [],
    [⟨"BehaviorTree", 2, [("ID", "T")],
      [⟨"Decorator", 3, [], []⟩,
       ⟨"Action", 4, [], []⟩]⟩]⟩⟩

/-- A `Decorator` element (line 5) declared with two children. -/
def d2_dec : XMLElement :=
  ⟨"Decorator", 5, [("ID", "Neg")],
    [⟨"Action", 6, [("ID", "A")], []⟩,
     ⟨"Action", 7, [("ID", "B")], []⟩]⟩

/-- A `BehaviorTree` whose single child is `d2_dec`. -/
def d2_bt : XMLElement := ⟨"BehaviorTree", 2, [("ID", "T")], [d2_dec]⟩

/-- Root element holding `d2_bt`. -/
def d2_root : XMLElement := ⟨"root", 1, [], [d2_bt]⟩

/-- A loaded definition containing a `Decorator` declared with 2 children. -/
def decorator_two_children_doc : XMLDocument := ⟨false, some d2_root⟩

/-- A document whose load failed before any root existed. -/
def no_root_doc : XMLDocument := ⟨false, none⟩

/-- The `SubTree` element (line 3) referencing the tree ID `Main` that
contains it. -/
def self_ref_sub_elem : XMLElement := ⟨"SubTree", 3, [("ID", "Main")], []⟩

/-- The `BehaviorTree` with ID `Main` whose only child references `Main`. -/
def self_ref_bt_elem : XMLElement :=
  ⟨"BehaviorTree", 2, [("ID", "Main")], [self_ref_sub_elem]⟩

/-- A valid definition whose main tree's `SubTree` references the tree's own
ID: the cyclic-reference input of the spec. -/
def self_ref_doc : XMLDocument :=
  ⟨false, some ⟨"root", 1, [("main_tree_to_execute", "Main")], [self_ref_bt_elem]⟩⟩

/-- A factory registering only the Subtree decorator kind. -/
def self_ref_factory : Factory := [("SubTree", NodeKind.subtreeDecorator)]

/-- A valid definition whose root's `main_tree_to_execute` names `Missing`,
an ID for which no `BehaviorTree` element exists in the document. -/
def missing_main_doc : XMLDocument :=
  ⟨false, some ⟨"root", 1, [("main_tree_to_execute", "Missing")],
    [⟨"BehaviorTree", 2, [("ID", "Main")],
      [⟨"Action", 3, [("ID", "A")], []⟩]⟩]⟩⟩

/-- A factory registering the one Action of `missing_main_doc`. -/
def missing_main_factory : Factory := [("A", NodeKind.action)]

/-- A valid definition whose main tree is a `Sequence` of Actions `A` and `B`:
with a factory that does not register `B`, the build fails after the
`Sequence` node and `A` have already been instantiated. -/
def partial_fail_doc : XMLDocument :=
  ⟨false, some ⟨"root", 1, [("main_tree_to_execute", "Main")],
    [⟨"BehaviorTree", 2, [("ID", "Main")],
      [⟨"Sequence", 3, [],
        [⟨"Action", 4, [("ID", "A")], []⟩,
         ⟨"Action", 5, [("ID", "B")], []⟩]⟩]⟩]⟩⟩

/-- A factory registering `Sequence` and `A` but not `B`. -/
def partial_fail_factory : Factory :=
  [("Sequence", NodeKind.control), ("A", NodeKind.action)]

/-- An element whose name is not part of the structural grammar. -/
def unknown_kind_elem : XMLElement := ⟨"Banana", 7, [], []⟩

/-- A `BehaviorTree` element with no children. -/
def bt_no_children_elem : XMLElement := ⟨"BehaviorTree", 9, [], []⟩

/-- A root element with three `TreeNodesModel` children. -/
def three_models_root : XMLElement :=
  ⟨"root", 1, [],
    [⟨"TreeNodesModel", 2, [], []⟩,
     ⟨"TreeNodesModel", 3, [], []⟩,
     ⟨"TreeNodesModel", 4, [], []⟩]⟩

/-- A `Decorator` element (line 2) declared with 2 children, placed directly
under root: a position the validator's walk never visits. -/
def stray_decorator_elem : XMLElement :=
  ⟨"Decorator", 2, [("ID", "D")],
    [⟨"Action", 3, [("ID", "A")], []⟩,
     ⟨"Action", 4, [("ID", "B")], []⟩]⟩

/-- A root holding `stray_decorator_elem` next to a well-formed
`BehaviorTree`. -/
def stray_decorator_root : XMLElement :=
  ⟨"root", 1, [],
    [stray_decorator_elem,
     ⟨"BehaviorTree", 5, [("ID", "T")],
       [⟨"Action", 6, [("ID", "A")], []⟩]⟩]⟩

/-- A loaded definition containing a `Decorator` declared with 2 children
that the validator never visits, while every visited element is
well-formed. -/
def stray_decorator_doc : XMLDocument := ⟨false, some stray_decorator_root⟩

theorem firstNamed_none (nm : String) (l : List XMLElement)
    (h : l.filter (fun c => c.name = nm) = []) : firstNamed nm l = none := by
  induction l with
  | nil => rfl
  | cons c rest ih =>
    simp [List.filter_cons] at h
    by_cases hc : c.name = nm
    · simp [hc] at h
    · simp [firstNamed, hc]
      exact ih (by simpa [hc] using h)

theorem secondNamed_none (nm : String) (l : List XMLElement)
    (h : l.filter (fun c => c.name = nm) = []) : secondNamed nm l = none := by
  induction l with
  | nil => rfl
  | cons c rest ih =>
    by_cases hc : c.name = nm
    · simp [List.filter_cons, hc] at h
    · simp [secondNamed, hc]
      exact ih (by simpa [List.filter_cons, hc] using h)

theorem firstNamed_some (nm : String) (l : List XMLElement)
    (h : 1 ≤ (l.filter (fun c => c.name = nm)).length) :
    ∃ s, firstNamed nm l = some s := by
  induction l with
  | nil => simp at h
  | cons c rest ih =>
    by_cases hc : c.name = nm
    · exact ⟨c, by simp [firstNamed, hc]⟩
    · simp [firstNamed, hc]
      exact ih (by simpa [List.filter_cons, hc] using h)

theorem secondNamed_some (nm : String) (l : List XMLElement)
    (h : 2 ≤ (l.filter (fun c => c.name = nm)).length) :
    ∃ s, secondNamed nm l = some s := by
  induction l with
  | nil => simp at h
  | cons c rest ih =>
    by_cases hc : c.name = nm
    · simp [secondNamed, hc]
      exact firstNamed_some nm rest (by simp [List.filter_cons, hc] at h; omega)
    · simp [secondNamed, hc]
      exact ih (by simpa [List.filter_cons, hc] using h)

theorem declErrsOf_texts (root node : XMLElement) (d : Diagnostic)
    (hd : d ∈ declErrsOf root node) :
    d.text = "Error at line %d: -> The attribute [ID] is mandatory" ∨
    d.text = "The node <Parameter> requires the attributes [type] and [label]" := by
  unfold declErrsOf at hd
  split at hd
  · rw [List.mem_append] at hd
    rcases hd with hd | hd
    · by_cases hid : (node.attr "ID").isNone
      · rw [if_pos hid] at hd
        simp at hd
        left
        rw [hd]
      · rw [if_neg hid] at hd
        simp at hd
    · rw [List.mem_flatten] at hd
      rcases hd with ⟨l, hl, hdl⟩
      rw [List.mem_map] at hl
      rcases hl with ⟨x, hx, rfl⟩
      by_cases hlt : (node.attr "label").isNone ∨ (node.attr "type").isNone
      · rw [if_pos hlt] at hdl
        simp at hdl
        right
        rw [hdl]
      · rw [if_neg hlt] at hdl
        simp at hdl
  · simp at hd

theorem localErrors_nil_iff (e : XMLElement) :
    localErrors e = [] ↔ specLocalOk e = true := by
  unfold localErrors specLocalOk
  split_ifs <;>
    simp_all [List.append_eq_nil, Option.isNone_iff_eq_none, Option.isSome_iff_ne_none,
      Nat.one_le_iff_ne_zero]

mutual
theorem recursiveStep_nil_iff (e : XMLElement) :
    recursiveStep e = [] ↔ specSubtreeOk e = true := by
  rw [recursiveStep, specSubtreeOk]
  have h1 := localErrors_nil_iff e
  have h2 := recursiveStepList_nil_iff e.children
  simp [List.append_eq_nil, h1, h2]
termination_by sizeOf e
decreasing_by
  cases e
  simp

theorem recursiveStepList_nil_iff (cs : List XMLElement) :
    recursiveStepList cs = [] ↔ specSubtreeOkList cs = true := by
  match cs with
  | [] => simp [recursiveStepList, specSubtreeOkList]
  | c :: rest =>
    rw [recursiveStepList, specSubtreeOkList]
    have h1 := recursiveStep_nil_iff c
    have h2 := recursiveStepList_nil_iff rest
    simp [List.append_eq_nil, h1, h2]
termination_by sizeOf cs
decreasing_by
  · simp
    omega
  · simp
end

theorem btErrors_nil_iff (bt : XMLElement) :
    btErrors bt = [] ↔ ∃ c, bt.children = [c] ∧ specSubtreeOk c = true := by
  unfold btErrors
  match hc : bt.children with
  | [] => simp
  | [c] => simp [recursiveStep_nil_iff c]
  | c1 :: c2 :: rest => simp

mutual
theorem mem_recursiveStep_of_mem_elemsOf (e x : XMLElement) (d : Diagnostic)
    (hx : x ∈ elemsOf e) (hd : d ∈ localErrors x) : d ∈ recursiveStep e := by
  rw [elemsOf] at hx
  rw [recursiveStep, List.mem_append]
  rcases List.mem_cons.mp hx with rfl | hx
  · exact Or.inl hd
  · exact Or.inr (mem_recursiveStepList_of_mem_elemsOfList e.children x d hx hd)
termination_by sizeOf e
decreasing_by
  cases e
  simp

theorem mem_recursiveStepList_of_mem_elemsOfList (cs : List XMLElement) (x : XMLElement)
    (d : Diagnostic) (hx : x ∈ elemsOfList cs) (hd : d ∈ localErrors x) :
    d ∈ recursiveStepList cs := by
  match cs with
  | [] => rw [elemsOfList] at hx; simp at hx
  | c :: rest =>
    rw [elemsOfList] at hx
    rw [recursiveStepList, List.mem_append]
    rcases List.mem_append.mp hx with hx | hx
    · exact Or.inl (mem_recursiveStep_of_mem_elemsOf c x d hx hd)
    · exact Or.inr (mem_recursiveStepList_of_mem_elemsOfList rest x d hx hd)
termination_by sizeOf cs
decreasing_by
  · simp
    omega
  · simp
end

theorem mem_verifyXML_of_visited (doc : XMLDocument) (xml_root bt c x : XMLElement)
    (d : Diagnostic)
    (hload : doc.loadError = false)
    (hroot : doc.root = some xml_root)
    (hname : xml_root.name = "root")
    (hbt : bt ∈ xml_root.children)
    (hbtname : bt.name = "BehaviorTree")
    (hone : bt.children = [c])
    (hx : x ∈ elemsOf c)
    (hd : d ∈ localErrors x) :
    d ∈ (verifyXML doc).2 ∧ (verifyXML doc).1 = false := by
  have hmem2 := mem_recursiveStep_of_mem_elemsOf c x d hx hd
  have hmem3 : d ∈ btErrors bt := by
    unfold btErrors
    rw [hone]
    exact hmem2
  have hmem4 : d ∈ treeErrors xml_root := by
    unfold treeErrors
    rw [List.mem_flatten]
    refine ⟨btErrors bt, ?_, hmem3⟩
    rw [List.mem_map]
    exact ⟨bt, List.mem_filter.mpr ⟨hbt, by simp [hbtname]⟩, rfl⟩
  constructor
  · have hverify : (verifyXML doc).2 = metaErrors xml_root ++ treeErrors xml_root := by
      unfold verifyXML
      rw [hload, hroot]
      simp [hname]
    rw [hverify]
    exact List.mem_append_right _ hmem4
  · unfold verifyXML
    rw [hload, hroot]
    simp only [hname, if_pos, Bool.false_eq_true, if_false]
    simp [List.isEmpty_iff]
    intro hmeta htree
    rw [htree] at hmem4
    simp at hmem4

theorem updateAt_map_core (f : BuiltNode → BuiltNode)
    (hf : ∀ x, nodeCore (f x) = nodeCore x) (p : Nat) (l : List BuiltNode) :
    (updateAt p f l).map nodeCore = l.map nodeCore := by
  induction l generalizing p with
  | nil => simp [updateAt]
  | cons x rest ih =>
    cases p with
    | zero => simp [updateAt, hf]
    | succ q => simp [updateAt, ih]

theorem attachChild_map_core (l : List BuiltNode) (p idx : Nat) :
    (attachChild l p idx).map nodeCore = l.map nodeCore := by
  unfold attachChild
  apply updateAt_map_core
  intro x
  cases hx : x.kind <;> simp [nodeCore, hx]

mutual
theorem node_builder_extends (fuel : Nat) (factory : Factory)
    (bt_roots : List (String × XMLElement)) (ID name : String)
    (params : List (String × String)) (parent : Option Nat) (nodes : List BuiltNode) :
    ∃ t, (resNodes (node_builder fuel factory bt_roots ID name params parent nodes)).map
      nodeCore = nodes.map nodeCore ++ t := by
  match fuel with
  | 0 => exact ⟨[], by simp [node_builder, resNodes]⟩
  | fuel + 1 =>
    rw [node_builder]
    dsimp only
    split
    · exact ⟨[], by simp [resNodes]⟩
    · rename_i kind heq
      cases parent with
      | none =>
        cases kind with
        | subtreeDecorator =>
          dsimp only
          split
          · exact ⟨[nodeCore ⟨ID, name, params, NodeKind.subtreeDecorator, none, []⟩],
              by simp [resNodes, nodeCore]⟩
          · split
            · exact ⟨[nodeCore ⟨ID, name, params, NodeKind.subtreeDecorator, none, []⟩],
                by simp [resNodes, nodeCore]⟩
            · rename_i subtree_elem heq2
              obtain ⟨t, ht⟩ := treeParsing_extends fuel factory bt_roots subtree_elem
                (some nodes.length)
                (nodes ++ [⟨ID, name, params, NodeKind.subtreeDecorator, none, []⟩])
              cases hr : treeParsing fuel factory bt_roots subtree_elem (some nodes.length)
                  (nodes ++ [⟨ID, name, params, NodeKind.subtreeDecorator, none, []⟩]) with
              | error e =>
                rw [hr] at ht
                simp only [resNodes] at ht
                refine ⟨nodeCore ⟨ID, name, params, NodeKind.subtreeDecorator, none, []⟩ :: t, ?_⟩
                dsimp only
                simp only [resNodes]
                rw [ht]
                simp [nodeCore]
              | ok v =>
                obtain ⟨v1, v2⟩ := v
                rw [hr] at ht
                simp only [resNodes] at ht
                refine ⟨nodeCore ⟨ID, name, params, NodeKind.subtreeDecorator, none, []⟩ :: t, ?_⟩
                dsimp only
                simp only [resNodes]
                rw [ht]
                simp [nodeCore]
        | action =>
          exact ⟨[nodeCore ⟨ID, name, params, NodeKind.action, none, []⟩],
            by simp [resNodes, nodeCore]⟩
        | condition =>
          exact ⟨[nodeCore ⟨ID, name, params, NodeKind.condition, none, []⟩],
            by simp [resNodes, nodeCore]⟩
        | control =>
          exact ⟨[nodeCore ⟨ID, name, params, NodeKind.control, none, []⟩],
            by simp [resNodes, nodeCore]⟩
        | decorator =>
          exact ⟨[nodeCore ⟨ID, name, params, NodeKind.decorator, none, []⟩],
            by simp [resNodes, nodeCore]⟩
      | some p =>
        cases kind with
        | subtreeDecorator =>
          dsimp only
          split
          · exact ⟨[nodeCore ⟨ID, name, params, NodeKind.subtreeDecorator, some p, []⟩],
              by simp [resNodes, nodeCore, attachChild_map_core]⟩
          · split
            · exact ⟨[nodeCore ⟨ID, name, params, NodeKind.subtreeDecorator, some p, []⟩],
                by simp [resNodes, nodeCore, attachChild_map_core]⟩
            · rename_i subtree_elem heq2
              obtain ⟨t, ht⟩ := treeParsing_extends fuel factory bt_roots subtree_elem
                (some nodes.length)
                (attachChild
                  (nodes ++ [⟨ID, name, params, NodeKind.subtreeDecorator, some p, []⟩])
                  p nodes.length)
              cases hr : treeParsing fuel factory bt_roots subtree_elem (some nodes.length)
                  (attachChild
                    (nodes ++ [⟨ID, name, params, NodeKind.subtreeDecorator, some p, []⟩])
                    p nodes.length) with
              | error e =>
                rw [hr] at ht
                simp only [resNodes] at ht
                rw [attachChild_map_core] at ht
                refine ⟨nodeCore ⟨ID, name, params, NodeKind.subtreeDecorator, some p, []⟩ :: t, ?_⟩
                dsimp only
                simp only [resNodes]
                rw [ht]
                simp [nodeCore]
              | ok v =>
                obtain ⟨v1, v2⟩ := v
                rw [hr] at ht
                simp only [resNodes] at ht
                rw [attachChild_map_core] at ht
                refine ⟨nodeCore ⟨ID, name, params, NodeKind.subtreeDecorator, some p, []⟩ :: t, ?_⟩
                dsimp only
                simp only [resNodes]
                rw [ht]
                simp [nodeCore]
        | action =>
          exact ⟨[nodeCore ⟨ID, name, params, NodeKind.action, some p, []⟩],
            by simp [resNodes, nodeCore, attachChild_map_core]⟩
        | condition =>
          exact ⟨[nodeCore ⟨ID, name, params, NodeKind.condition, some p, []⟩],
            by simp [resNodes, nodeCore, attachChild_map_core]⟩
        | control =>
          exact ⟨[nodeCore ⟨ID, name, params, NodeKind.control, some p, []⟩],
            by simp [resNodes, nodeCore, attachChild_map_core]⟩
        | decorator =>
          exact ⟨[nodeCore ⟨ID, name, params, NodeKind.decorator, some p, []⟩],
            by simp [resNodes, nodeCore, attachChild_map_core]⟩
termination_by structural fuel

theorem treeParsing_extends (fuel : Nat) (factory : Factory)
    (bt_roots : List (String × XMLElement)) (element : XMLElement)
    (parent : Option Nat) (nodes : List BuiltNode) :
    ∃ t, (resNodes (treeParsing fuel factory bt_roots element parent nodes)).map
      nodeCore = nodes.map nodeCore ++ t := by
  match fuel with
  | 0 => exact ⟨[], by simp [treeParsing, resNodes]⟩
  | fuel + 1 =>
    rw [treeParsing]
    obtain ⟨t1, ht1⟩ := node_builder_extends fuel factory bt_roots (elemID element)
      (elemName element) (elemParams element) parent nodes
    cases hr : node_builder fuel factory bt_roots (elemID element) (elemName element)
        (elemParams element) parent nodes with
    | error e =>
      rw [hr] at ht1
      exact ⟨t1, ht1⟩
    | ok v =>
      obtain ⟨idx1, nodes1⟩ := v
      rw [hr] at ht1
      simp only [resNodes] at ht1
      dsimp only
      obtain ⟨t2, ht2⟩ := treeParsingChildren_extends fuel factory bt_roots
        element.children idx1 nodes1
      cases hr2 : treeParsingChildren fuel factory bt_roots element.children idx1 nodes1 with
      | error e =>
        rw [hr2] at ht2
        simp only [resNodesL] at ht2
        refine ⟨t1 ++ t2, ?_⟩
        dsimp only
        simp only [resNodes]
        rw [ht2, ht1, List.append_assoc]
      | ok nodes2 =>
        rw [hr2] at ht2
        simp only [resNodesL] at ht2
        refine ⟨t1 ++ t2, ?_⟩
        dsimp only
        simp only [resNodes]
        rw [ht2, ht1, List.append_assoc]
termination_by structural fuel

theorem treeParsingChildren_extends (fuel : Nat) (factory : Factory)
    (bt_roots : List (String × XMLElement)) (cs : List XMLElement)
    (parentIdx : Nat) (nodes : List BuiltNode) :
    ∃ t, (resNodesL (treeParsingChildren fuel factory bt_roots cs parentIdx nodes)).map
      nodeCore = nodes.map nodeCore ++ t := by
  match cs with
  | [] => exact ⟨[], by simp [treeParsingChildren, resNodesL]⟩
  | c :: rest =>
    match fuel with
    | 0 => exact ⟨[], by simp [treeParsingChildren, resNodesL]⟩
    | fuel + 1 =>
      rw [treeParsingChildren]
      obtain ⟨t1, ht1⟩ := treeParsing_extends fuel factory bt_roots c (some parentIdx) nodes
      cases hr : treeParsing fuel factory bt_roots c (some parentIdx) nodes with
      | error e =>
        rw [hr] at ht1
        exact ⟨t1, ht1⟩
      | ok v =>
        obtain ⟨idx1, nodes1⟩ := v
        rw [hr] at ht1
        simp only [resNodes] at ht1
        dsimp only
        obtain ⟨t2, ht2⟩ := treeParsingChildren_extends fuel factory bt_roots rest
          parentIdx nodes1
        refine ⟨t1 ++ t2, ?_⟩
        rw [ht2, ht1, List.append_assoc]
termination_by structural fuel
end

theorem instantiateTree_extends (fuel : Nat) (factory : Factory) (doc : XMLDocument)
    (nodes : List BuiltNode) :
    ∃ t, (resNodes (instantiateTree fuel factory doc nodes)).map nodeCore =
      nodes.map nodeCore ++ t := by
  unfold instantiateTree
  dsimp only
  split
  · split
    · exact ⟨[], by simp [resNodes]⟩
    · split
      · exact ⟨[], by simp [resNodes]⟩
      · split
        · exact ⟨[], by simp [resNodes]⟩
        · split
          · exact ⟨[], by simp [resNodes]⟩
          · split
            · exact ⟨[], by simp [resNodes]⟩
            · exact treeParsing_extends fuel factory _ _ none nodes
  · exact ⟨[], by simp [resNodes]⟩

theorem self_ref_treeParsing_loops (fuel : Nat) :
    ∀ (parent : Option Nat) (nodes : List BuiltNode), ∃ nodes',
      treeParsing fuel self_ref_factory [("Main", self_ref_bt_elem)] self_ref_sub_elem
        parent nodes = .error (.outOfFuel, nodes') := by
  induction fuel using Nat.strong_induction_on with
  | _ fuel ih =>
    match fuel with
    | 0 => exact fun parent nodes => ⟨nodes, by rw [treeParsing]⟩
    | 1 =>
      intro parent nodes
      refine ⟨nodes, ?_⟩
      rw [treeParsing, node_builder]
    | fuel + 2 =>
      intro parent nodes
      cases parent with
      | none =>
        obtain ⟨nodes', hn⟩ := ih fuel (by omega) (some nodes.length)
          (nodes ++ [⟨"SubTree", "Main", [], NodeKind.subtreeDecorator, none, []⟩])
        refine ⟨nodes', ?_⟩
        rw [treeParsing, node_builder]
        simp only [self_ref_sub_elem, self_ref_bt_elem, self_ref_factory] at hn ⊢
        simp [elemID, elemName, elemParams, XMLElement.attr, lookupAssoc, hn]
      | some p =>
        obtain ⟨nodes', hn⟩ := ih fuel (by omega) (some nodes.length)
          (attachChild
            (nodes ++ [⟨"SubTree", "Main", [], NodeKind.subtreeDecorator, some p, []⟩])
            p nodes.length)
        refine ⟨nodes', ?_⟩
        rw [treeParsing, node_builder]
        simp only [self_ref_sub_elem, self_ref_bt_elem, self_ref_factory] at hn ⊢
        simp [elemID, elemName, elemParams, XMLElement.attr, lookupAssoc, hn]

/-- C1: for every loaded definition whose validation produces at least one
diagnostic, `instantiateTree` refuses to build: it runs the validator itself,
surfaces every collected diagnostic in the thrown error, and aborts before
instantiating any node, returning the caller's node list unchanged. -/
theorem instantiateTree_refuses_invalid (fuel : Nat) (factory : Factory)
    (doc : XMLDocument) (nodes : List BuiltNode) (h : (verifyXML doc).2 ≠ []) :
    instantiateTree fuel factory doc nodes =
      .error (.verifyFailed (verifyXML doc).2, nodes) := by
  unfold instantiateTree
  rw [if_neg]
  simpa [List.isEmpty_iff] using h

/-- Witness for C1 at the document whose load produced no root element. -/
theorem instantiateTree_refuses_invalid_witness :
    (verifyXML no_root_doc).2 ≠ [] ∧
    instantiateTree 5 [] no_root_doc [] =
      .error (.verifyFailed (verifyXML no_root_doc).2, []) :=
  ⟨by simp [verifyXML, no_root_doc],
   instantiateTree_refuses_invalid 5 [] no_root_doc []
     (by simp [verifyXML, no_root_doc])⟩

/-- C2: on the valid definition whose `SubTree` references the tree's own ID,
the build never terminates normally and never reports a build error: for every
step bound the builder's mutual recursion only stops by exhausting it (in the
C++, unbounded recursion through `node_builder`/`treeParsing`), because no
cycle detection exists. -/
theorem self_reference_unbounded_recursion (fuel : Nat) : ∃ nodes',
    instantiateTree fuel self_ref_factory self_ref_doc [] =
      .error (.outOfFuel, nodes') := by
  obtain ⟨nodes', hn⟩ := self_ref_treeParsing_loops fuel none []
  refine ⟨nodes', ?_⟩
  unfold instantiateTree
  have hv : (verifyXML self_ref_doc).2 = [] := by
    simp [verifyXML, self_ref_doc, self_ref_bt_elem, self_ref_sub_elem, metaErrors,
      treeErrors, btErrors, recursiveStep, recursiveStepList, localErrors, secondNamed,
      firstNamed, XMLElement.attr]
  rw [hv]
  simp only [self_ref_sub_elem, self_ref_bt_elem, self_ref_factory] at hn
  simp [self_ref_doc, self_ref_bt_elem, self_ref_sub_elem, self_ref_factory,
    XMLElement.attr, collectBtRoots, insertAssoc, lookupAssoc, hn]

/-- C3: on a valid definition whose `main_tree_to_execute` names an ID with no
matching `BehaviorTree`, `instantiateTree` reaches the null dereference of
`bt_roots[main_tree_ID]->FirstChildElement()` (undefined behavior in the C++,
not a reported build error); no node has been instantiated at that point. -/
theorem missing_main_tree_null_dereference :
    instantiateTree 10 missing_main_factory missing_main_doc [] =
      .error (.nullDereference, []) := by
  simp [instantiateTree, missing_main_doc, missing_main_factory, verifyXML, metaErrors,
    treeErrors, btErrors, recursiveStep, recursiveStepList, localErrors, secondNamed,
    firstNamed, XMLElement.attr, collectBtRoots, insertAssoc, lookupAssoc]

/-- C4 counterexample: when the factory does not know Action `B`, the build of
`partial_fail_doc` fails partway, and the caller's flat node list is not
discarded: it still holds the `Sequence` node and the Action `A` instantiated
before the failure, refuting the claim that it retains none of them. -/
theorem builder_failure_keeps_nodes_counterexample :
    instantiateTree 10 partial_fail_factory partial_fail_doc [] =
      .error (.unknownNodeId "B",
        [⟨"Sequence", "Sequence", [], NodeKind.control, none, [1]⟩,
         ⟨"A", "A", [], NodeKind.action, some 0, []⟩]) ∧
    ([⟨"Sequence", "Sequence", [], NodeKind.control, none, [1]⟩,
      ⟨"A", "A", [], NodeKind.action, some 0, []⟩] : List BuiltNode) ≠ [] := by
  constructor
  · simp [instantiateTree, partial_fail_doc, partial_fail_factory, verifyXML, metaErrors,
      treeErrors, btErrors, recursiveStep, recursiveStepList, localErrors, secondNamed,
      firstNamed, XMLElement.attr, collectBtRoots, insertAssoc, lookupAssoc, treeParsing,
      node_builder, treeParsingChildren, elemID, elemName, elemParams, attachChild, updateAt]
  · simp

/-- C4 amended: a builder failure returns no tree, but the flat node list
passed by the caller is not discarded: whatever error `instantiateTree` throws,
the list it leaves behind still begins with every node it held before the call
(same identity fields; only child links may have been updated), followed by the
nodes instantiated before the failure. -/
theorem instantiateTree_failure_retains_nodes (fuel : Nat) (factory : Factory)
    (doc : XMLDocument) (nodes : List BuiltNode) (err : BuildErr)
    (nodes' : List BuiltNode)
    (h : instantiateTree fuel factory doc nodes = .error (err, nodes')) :
    ∃ t, nodes'.map nodeCore = nodes.map nodeCore ++ t := by
  obtain ⟨t, ht⟩ := instantiateTree_extends fuel factory doc nodes
  rw [h] at ht
  simp only [resNodes] at ht
  exact ⟨t, ht⟩

/-- Witness for the amended C4 at the partial-failure input. -/
theorem instantiateTree_failure_retains_nodes_witness :
    ∃ t, ([⟨"Sequence", "Sequence", [], NodeKind.control, none, [1]⟩,
           ⟨"A", "A", [], NodeKind.action, some 0, []⟩] : List BuiltNode).map nodeCore =
      ([] : List BuiltNode).map nodeCore ++ t :=
  instantiateTree_failure_retains_nodes 10 partial_fail_factory partial_fail_doc []
    (.unknownNodeId "B")
    [⟨"Sequence", "Sequence", [], NodeKind.control, none, [1]⟩,
     ⟨"A", "A", [], NodeKind.action, some 0, []⟩]
    (by simp [instantiateTree, partial_fail_doc, partial_fail_factory, verifyXML,
      metaErrors, treeErrors, btErrors, recursiveStep, recursiveStepList, localErrors,
      secondNamed, firstNamed, XMLElement.attr, collectBtRoots, insertAssoc, lookupAssoc,
      treeParsing, node_builder, treeParsingChildren, elemID, elemName, elemParams,
      attachChild, updateAt])

/-- C5 counterexample: not every rule violation in a definition is collected.
In `bt_two_children_doc` the childless `Decorator` at line 3 violates two
grammar rules (its own local checks are nonempty), yet the validator's output
is exactly the one `BehaviorTree`-arity diagnostic and contains no diagnostic
for line 3: the walk never visits the violating element. -/
theorem verifyXML_unvisited_violation_counterexample :
    localErrors ⟨"Decorator", 3, [], []⟩ =
      [⟨some 3, "The node <Decorator> must have exactly 1 child"⟩,
       ⟨some 3, "The node <Decorator> must have the attribute [ID]"⟩] ∧
    (verifyXML bt_two_children_doc).2 =
      [⟨some 2, "The node <BehaviorTree> must have exactly 1 child"⟩] ∧
    (⟨some 3, "The node <Decorator> must have exactly 1 child"⟩ : Diagnostic) ∉
      (verifyXML bt_two_children_doc).2 := by
  refine ⟨?_, ?_, ?_⟩
  · simp [localErrors, XMLElement.attr]
  · simp [verifyXML, bt_two_children_doc, metaErrors, treeErrors, btErrors, secondNamed,
      firstNamed]
  · simp [verifyXML, bt_two_children_doc, metaErrors, treeErrors, btErrors, secondNamed,
      firstNamed]

/-- C5 amended: for every loaded definition, `verifyXML` is valid exactly when
its diagnostics list is empty (invalid exactly when at least one diagnostic
was appended); validation does not stop at the first violation — every rule
violation at a position the walk visits (any element in the subtree of the
single child of a `BehaviorTree` with exactly one child under root) is
collected before the result is returned, and on `two_violation_doc` two
distinct violations are both collected in one run. -/
theorem verifyXML_valid_iff_visited_violations_collected :
    (∀ doc : XMLDocument, (verifyXML doc).1 = true ↔ (verifyXML doc).2 = []) ∧
    (∀ (doc : XMLDocument) (xml_root bt c x : XMLElement) (d : Diagnostic),
      doc.loadError = false → doc.root = some xml_root → xml_root.name = "root" →
      bt ∈ xml_root.children → bt.name = "BehaviorTree" → bt.children = [c] →
      x ∈ elemsOf c → d ∈ localErrors x → d ∈ (verifyXML doc).2) ∧
    (verifyXML two_violation_doc).2.length = 2 ∧
    (verifyXML two_violation_doc).1 = false := by
  refine ⟨?_, ?_, ?_, ?_⟩
  · intro doc
    unfold verifyXML
    split
    · simp
    · split
      · simp
      · split
        · simp [List.isEmpty_iff]
        · simp
  · intro doc xml_root bt c x d hload hroot hname hbt hbtname hone hx hd
    exact (mem_verifyXML_of_visited doc xml_root bt c x d hload hroot hname hbt hbtname
      hone hx hd).1
  · simp [verifyXML, two_violation_doc, metaErrors, treeErrors, btErrors, recursiveStep,
      recursiveStepList, localErrors, secondNamed, firstNamed, XMLElement.attr]
  · simp [verifyXML, two_violation_doc, metaErrors, treeErrors, btErrors, recursiveStep,
      recursiveStepList, localErrors, secondNamed, firstNamed, XMLElement.attr]

/-- Witness for the amended C5: the unrecognized-name violation at line 4 of
`two_violation_doc` is at a visited position, and its diagnostic is indeed in
the validator's output. -/
theorem verifyXML_valid_iff_visited_violations_collected_witness :
    (⟨some 4, "Node not recognized"⟩ : Diagnostic) ∈ (verifyXML two_violation_doc).2 :=
  verifyXML_valid_iff_visited_violations_collected.2.1 two_violation_doc
    ⟨"root", 1, [],
      [⟨"BehaviorTree", 2, [("ID", "T")],
        [⟨"Sequence", 3, [],
          [⟨"Banana", 4, [], []⟩, ⟨"Action", 5, [], []⟩]⟩]⟩]⟩
    ⟨"BehaviorTree", 2, [("ID", "T")],
      [⟨"Sequence", 3, [],
        [⟨"Banana", 4, [], []⟩, ⟨"Action", 5, [], []⟩]⟩]⟩
    ⟨"Sequence", 3, [], [⟨"Banana", 4, [], []⟩, ⟨"Action", 5, [], []⟩]⟩
    ⟨"Banana", 4, [], []⟩
    ⟨some 4, "Node not recognized"⟩
    rfl rfl rfl (by simp) rfl rfl
    (by simp [elemsOf, elemsOfList])
    (by simp [localErrors])

/-- C6: the validator's walk enforces exactly the structural grammar of §4.6:
an element raises no local diagnostic precisely when its spec-side local rule
holds; a subtree raises none precisely when the spec grammar holds throughout;
a `BehaviorTree` raises none precisely when it has exactly one structural
child whose subtree satisfies the grammar; and any unrecognized element name
yields the unrecognized-node diagnostic. -/
theorem validator_enforces_structural_grammar :
    (∀ e : XMLElement, localErrors e = [] ↔ specLocalOk e = true) ∧
    (∀ e : XMLElement, recursiveStep e = [] ↔ specSubtreeOk e = true) ∧
    (∀ bt : XMLElement, btErrors bt = [] ↔
      ∃ c, bt.children = [c] ∧ specSubtreeOk c = true) ∧
    (∀ e : XMLElement,
      e.name ∉ (["Decorator", "Action", "Condition", "Sequence", "SequenceStar",
        "Fallback", "FallbackStar", "SubTree"] : List String) →
      localErrors e = [⟨some e.line, "Node not recognized"⟩]) := by
  refine ⟨localErrors_nil_iff, recursiveStep_nil_iff, btErrors_nil_iff, ?_⟩
  intro e h
  simp at h
  unfold localErrors
  simp [h]

/-- Witness for C6 at an element with an unrecognized name. -/
theorem validator_enforces_structural_grammar_witness :
    unknown_kind_elem.name ∉ (["Decorator", "Action", "Condition", "Sequence",
      "SequenceStar", "Fallback", "FallbackStar", "SubTree"] : List String) ∧
    localErrors unknown_kind_elem = [⟨some unknown_kind_elem.line, "Node not recognized"⟩] :=
  ⟨by decide,
   validator_enforces_structural_grammar.2.2.2 unknown_kind_elem (by decide)⟩

/-- C7 counterexample: a `Decorator` declared with 2 children at a position
the validator's walk never visits leaves the definition valid with no
diagnostics at all — refuting the claim that every definition containing such
a `Decorator` is invalid with one exactly-1-child diagnostic for it. -/
theorem decorator_two_children_counterexample :
    stray_decorator_doc.root = some stray_decorator_root ∧
    stray_decorator_elem ∈ stray_decorator_root.children ∧
    stray_decorator_elem.name = "Decorator" ∧
    stray_decorator_elem.children.length = 2 ∧
    (verifyXML stray_decorator_doc).1 = true ∧
    (verifyXML stray_decorator_doc).2 = [] := by
  refine ⟨rfl, by simp [stray_decorator_root], rfl, rfl, ?_, ?_⟩
  · simp [verifyXML, stray_decorator_doc, stray_decorator_root, stray_decorator_elem,
      metaErrors, treeErrors, btErrors, recursiveStep, recursiveStepList, localErrors,
      secondNamed, firstNamed, XMLElement.attr]
  · simp [verifyXML, stray_decorator_doc, stray_decorator_root, stray_decorator_elem,
      metaErrors, treeErrors, btErrors, recursiveStep, recursiveStepList, localErrors,
      secondNamed, firstNamed, XMLElement.attr]

/-- C7 amended: every definition containing a `Decorator` declared with 2
children at a position the validator visits — in the subtree of the single
child of a `BehaviorTree` under root that has exactly one child — is invalid,
its diagnostics contain the exactly-1-child message with the declared
element's line, and the element's own checks emit that message exactly once.
(A 2-child `Decorator` the walk never visits produces no such diagnostic; see
the counterexample.) -/
theorem decorator_two_children_diagnostic (doc : XMLDocument)
    (xml_root bt c d : XMLElement)
    (hload : doc.loadError = false)
    (hroot : doc.root = some xml_root)
    (hname : xml_root.name = "root")
    (hbt : bt ∈ xml_root.children)
    (hbtname : bt.name = "BehaviorTree")
    (hone : bt.children = [c])
    (hd : d ∈ elemsOf c)
    (hdname : d.name = "Decorator")
    (htwo : d.children.length = 2) :
    (verifyXML doc).1 = false ∧
    (⟨some d.line, "The node <Decorator> must have exactly 1 child"⟩ : Diagnostic) ∈
      (verifyXML doc).2 ∧
    (localErrors d).count
      ⟨some d.line, "The node <Decorator> must have exactly 1 child"⟩ = 1 := by
  have hcount : (localErrors d).count
      ⟨some d.line, "The node <Decorator> must have exactly 1 child"⟩ = 1 := by
    unfold localErrors
    rw [if_pos hdname, htwo]
    by_cases hid : (d.attr "ID").isNone
    · rw [if_pos hid]
      simp [List.count_cons]
    · rw [if_neg hid]
      simp [List.count_cons]
  have hmem : (⟨some d.line, "The node <Decorator> must have exactly 1 child"⟩ : Diagnostic) ∈
      localErrors d := by
    by_contra hc
    rw [List.count_eq_zero_of_not_mem hc] at hcount
    simp at hcount
  obtain ⟨h1, h2⟩ := mem_verifyXML_of_visited doc xml_root bt c d _ hload hroot hname hbt
    hbtname hone hd hmem
  exact ⟨h2, h1, hcount⟩

/-- Witness for the amended C7 at `decorator_two_children_doc`. -/
theorem decorator_two_children_diagnostic_witness :
    (verifyXML decorator_two_children_doc).1 = false ∧
    (⟨some 5, "The node <Decorator> must have exactly 1 child"⟩ : Diagnostic) ∈
      (verifyXML decorator_two_children_doc).2 ∧
    (localErrors d2_dec).count
      ⟨some 5, "The node <Decorator> must have exactly 1 child"⟩ = 1 :=
  decorator_two_children_diagnostic decorator_two_children_doc d2_root d2_bt d2_dec d2_dec
    rfl rfl rfl (by simp [d2_root]) rfl rfl
    (by rw [elemsOf]; exact List.mem_cons_self _ _) rfl rfl

/-- C8: for a valid definition whose main tree is a single `SubTree`
referencing a `BehaviorTree` whose root is a single Action, the reference is
expanded at build time: the referenced Action is built into the same flat
list, attached as the Subtree decorator's single child, with the Subtree
decorator as its sole parent. -/
theorem subtree_expansion_in_flat_list (m s a : String) (l1 l2 l3 l4 : Nat)
    (hms : m ≠ s) (ha : a ≠ "SubTree") :
    instantiateTree 6 [("SubTree", NodeKind.subtreeDecorator), (a, NodeKind.action)]
      ⟨false, some ⟨"root", 1, [("main_tree_to_execute", m)],
        [⟨"BehaviorTree", l1, [("ID", m)], [⟨"SubTree", l2, [("ID", s)], []⟩]⟩,
         ⟨"BehaviorTree", l3, [("ID", s)], [⟨"Action", l4, [("ID", a)], []⟩]⟩]⟩⟩
      [] =
    .ok (0, [⟨"SubTree", s, [], NodeKind.subtreeDecorator, none, [1]⟩,
             ⟨a, a, [], NodeKind.action, some 0, []⟩]) := by
  have hv : (verifyXML ⟨false, some ⟨"root", 1, [("main_tree_to_execute", m)],
      [⟨"BehaviorTree", l1, [("ID", m)], [⟨"SubTree", l2, [("ID", s)], []⟩]⟩,
       ⟨"BehaviorTree", l3, [("ID", s)], [⟨"Action", l4, [("ID", a)], []⟩]⟩]⟩⟩).2 = [] := by
    simp [verifyXML, metaErrors, treeErrors, btErrors, recursiveStep, recursiveStepList,
      localErrors, secondNamed, firstNamed, XMLElement.attr]
  unfold instantiateTree
  rw [hv]
  simp [XMLElement.attr, collectBtRoots, insertAssoc, lookupAssoc, hms, Ne.symm hms,
    treeParsing, node_builder, treeParsingChildren, elemID, elemName, elemParams,
    attachChild, updateAt, ha, Ne.symm ha]

/-- Witness for C8 at main tree `Main`, subtree `Sub`, action `SayHi`. -/
theorem subtree_expansion_in_flat_list_witness :
    instantiateTree 6
      [("SubTree", NodeKind.subtreeDecorator), ("SayHi", NodeKind.action)]
      ⟨false, some ⟨"root", 1, [("main_tree_to_execute", "Main")],
        [⟨"BehaviorTree", 2, [("ID", "Main")], [⟨"SubTree", 3, [("ID", "Sub")], []⟩]⟩,
         ⟨"BehaviorTree", 4, [("ID", "Sub")], [⟨"Action", 5, [("ID", "SayHi")], []⟩]⟩]⟩⟩
      [] =
    .ok (0, [⟨"SubTree", "Sub", [], NodeKind.subtreeDecorator, none, [1]⟩,
             ⟨"SayHi", "SayHi", [], NodeKind.action, some 0, []⟩]) :=
  subtree_expansion_in_flat_list "Main" "Sub" "SayHi" 2 3 4 5 (by decide) (by decide)

/-- C9: for every `BehaviorTree` element whose child count differs from 1, the
validator emits exactly the one arity diagnostic for that element and does not
descend into its children; on `bt_two_children_doc` the inner childless
`Decorator` violation therefore produces no diagnostic of its own. -/
theorem behaviorTree_bad_arity_stops_descent :
    (∀ bt : XMLElement, bt.children.length ≠ 1 →
      btErrors bt = [⟨some bt.line, "The node <BehaviorTree> must have exactly 1 child"⟩]) ∧
    (verifyXML bt_two_children_doc).2 =
      [⟨some 2, "The node <BehaviorTree> must have exactly 1 child"⟩] := by
  constructor
  · intro bt h
    unfold btErrors
    match hc : bt.children with
    | [] => rfl
    | [c] => rw [hc] at h; simp at h
    | c1 :: c2 :: rest => rfl
  · simp [verifyXML, bt_two_children_doc, metaErrors, treeErrors, btErrors, secondNamed,
      firstNamed]

/-- Witness for C9 at a childless `BehaviorTree` element. -/
theorem behaviorTree_bad_arity_stops_descent_witness :
    bt_no_children_elem.children.length ≠ 1 ∧
    btErrors bt_no_children_elem =
      [⟨some bt_no_children_elem.line, "The node <BehaviorTree> must have exactly 1 child"⟩] :=
  ⟨by decide, behaviorTree_bad_arity_stops_descent.1 bt_no_children_elem (by decide)⟩

/-- C10: the `TreeNodesModel` section is optional: with no such child, the
whole section (including every per-declaration check) contributes no
diagnostic; with two or more such children, exactly one only-a-single-node
diagnostic is produced regardless of how many extra siblings exist. -/
theorem treeNodesModel_optional_single_diagnostic :
    (∀ xml_root : XMLElement,
      xml_root.children.filter (fun c => c.name = "TreeNodesModel") = [] →
      metaErrors xml_root = []) ∧
    (∀ xml_root : XMLElement,
      2 ≤ (xml_root.children.filter (fun c => c.name = "TreeNodesModel")).length →
      (metaErrors xml_root).countP
        (fun d => d.text = " Only a single node <TreeNodesModel> is supported") = 1) := by
  constructor
  · intro r h
    unfold metaErrors
    rw [secondNamed_none _ _ h, firstNamed_none _ _ h]
    rfl
  · intro r h
    unfold metaErrors
    obtain ⟨s, hs⟩ := secondNamed_some _ _ h
    rw [hs]
    obtain ⟨f, hf⟩ := firstNamed_some _ _ (Nat.le_trans (by omega) h)
    rw [hf]
    rw [List.countP_append]
    have h1 : ([(⟨some s.line, " Only a single node <TreeNodesModel> is supported"⟩ : Diagnostic)]).countP
        (fun d => d.text = " Only a single node <TreeNodesModel> is supported") = 1 := by
      simp [List.countP_cons]
    rw [h1]
    have h2 : ((r.children.map (declErrsOf r)).flatten).countP
        (fun d => d.text = " Only a single node <TreeNodesModel> is supported") = 0 := by
      rw [List.countP_eq_zero]
      intro d hd
      simp [List.mem_flatten, List.mem_map] at hd
      rcases hd with ⟨x, hx, hdx⟩
      rcases declErrsOf_texts r x d hdx with h | h <;> simp [h]
    rw [h2]

/-- Witness for C10 at a root with three `TreeNodesModel` children. -/
theorem treeNodesModel_optional_single_diagnostic_witness :
    2 ≤ (three_models_root.children.filter (fun c => c.name = "TreeNodesModel")).length ∧
    (metaErrors three_models_root).countP
      (fun d => d.text = " Only a single node <TreeNodesModel> is supported") = 1 :=
  ⟨by decide, treeNodesModel_optional_single_diagnostic.2 three_models_root (by decide)⟩
